import Mathlib

/-!
Verification development for the multiview SUNCG data-loading pipeline
(`object_branch/data/suncg_multi.py`): split-file parsing, per-view
fetchers, per-sample assembly with validity flags, the cross-view
affinity matrix, and the custom batch collation.

File contents, camera poses, selector/encoder outputs and random draws
are passed in as explicit arguments, so every routine is a pure function
of its inputs.  Python dictionaries become association lists of
`String × Val`; Python exceptions (KeyError, IndexError,
UnboundLocalError, ValueError, ...) become `Except String` errors.
-/

namespace Suncg

/-- A value stored in a per-view element dictionary or in a collated
batch: an opaque scalar/tensor token, a string, or a (possibly nested)
list, mirroring the numpy arrays and Python lists of the source. -/
inductive Val where
  | vint (n : Int)
  | vstr (s : String)
  | vlist (xs : List Val)

/-- A Python dict with string keys, as an ordered association list
(Python dicts preserve insertion order). -/
abbrev View := List (String × Val)

/-- The items of a value viewed as an iterable (used for
`itertools.chain` / `torch.cat`, which both concatenate entries). -/
def valItems : Val → List Val
  | .vlist xs => xs
  | v => [v]

/-- numpy `.size` of a 1-D value (number of entries). -/
def valSize : Val → Nat
  | .vlist xs => xs.length
  | _ => 1

/-- Dictionary lookup, `d[key]` without the KeyError (returns `none`). -/
def lookupKey : View → String → Option Val
  | [], _ => none
  | (k, v) :: rest, key => if k = key then some v else lookupKey rest key

/-- Whether an `Except` computation ended in an error. -/
def isErr : Except String α → Bool
  | .error _ => true
  | .ok _ => false

/-- Effectful map over a list, stopping at the first error (the order in
which Python raises inside a loop or comprehension). -/
def exMapM (f : α → Except String β) : List α → Except String (List β)
  | [] => .ok []
  | a :: as =>
    match f a with
    | .error e => .error e
    | .ok b =>
      match exMapM f as with
      | .error e => .error e
      | .ok bs => .ok (b :: bs)

/-- Encode a list of opaque numeric entries as a stored value. -/
def intsVal (l : List Int) : Val := Val.vlist (l.map Val.vint)

/-- Encode a 2-D numeric array (e.g. a stack of bounding boxes). -/
def boxesVal (l : List (List Int)) : Val := Val.vlist (l.map intsVal)

/-- Decode a stored list of numeric entries (inverse of `intsVal` on
well-formed values; other entries decode to `0`). -/
def valToInts : Val → List Int
  | .vlist xs => xs.map (fun v => match v with | .vint n => n | _ => 0)
  | _ => []

/-- numpy `.size` of a 2-D integer array given as a list of rows. -/
def npSize2 (l : List (List Int)) : Nat := (l.map List.length).sum

/-! ## Split Index: `SuncgDataset.parse_split_file` -/

/-- Split a character list at every occurrence of the separator,
keeping empty fields (the semantics of Python `str.split(sep)` for a
one-character separator). -/
def splitChar (sep : Char) : List Char → List (List Char)
  | [] => [[]]
  | c :: rest =>
    if c = sep then [] :: splitChar sep rest
    else
      match splitChar sep rest with
      | [] => [[c]]
      | f :: fs => (c :: f) :: fs

/-- Python `s.split(sep)` for a one-character separator, on strings. -/
def pySplit (sep : Char) (s : String) : List String :=
  (splitChar sep s.data).map (fun cs => { data := cs })

/-- Python `s[:6]`. -/
def pyTake6 (s : String) : String := { data := s.data.take 6 }

/-- Parse one manifest line: split on single spaces, take fields 0 and 8
(IndexError if there is no field 8), scene id is the second-to-last `/`
segment of field 0 (IndexError if fewer than two segments), each view id
is the first 6 characters of the respective filename. -/
def parse_line (line : String) : Except String (String × String × String) :=
  match (pySplit ' ' line).get? 0, (pySplit ' ' line).get? 8 with
  | some img1_path, some img2_path =>
    let segs1 := pySplit '/' img1_path
    if 2 ≤ segs1.length then
      .ok (segs1.getD (segs1.length - 2) "",
           pyTake6 (segs1.getLastD ""),
           pyTake6 ((pySplit '/' img2_path).getLastD ""))
    else .error "IndexError"
  | _, _ => .error "IndexError"

/-- The `parse_split_file` routine: drop the 3 header lines, parse every remaining
line in order; any line failure propagates. -/
def parse_split_file (lines : List String) :
    Except String (List (String × String × String)) :=
  exMapM parse_line (lines.drop 3)

/-! ## Image fetcher: `SuncgDataset.forward_img`

The decoded file is either a 2-D (grayscale) or H×W×C pixel grid; cv2
resizing is an external library call, passed in as a function argument.
-/

/-- A decoded image file: grayscale (no channel axis) or multi-channel. -/
inductive RawImg where
  | gray (px : List (List Int))
  | multi (px : List (List (List Int)))
deriving DecidableEq

/-- Channel count of an H×W×C grid (numpy `shape[2]`). -/
def channelCount (px : List (List (List Int))) : Nat :=
  ((px.getD 0 []).getD 0 []).length

/-- The repair policy of `forward_img`: a grayscale image has its single
channel replicated 3 times; a 2-channel image gets its first channel
appended as a third. -/
def channelRepair : RawImg → List (List (List Int))
  | .gray px => px.map (fun row => row.map (fun p => [p, p, p]))
  | .multi px =>
    if channelCount px = 2 then
      px.map (fun row => row.map (fun c => c ++ c.take 1))
    else px

/-- The `np.transpose(img, (2,0,1))` step: H×W×C to C×H×W. -/
def transposeCHW (px : List (List (List Int))) : List (List (List Int)) :=
  (List.range (channelCount px)).map
    (fun ci => px.map (fun row => row.map (fun p => p.getD ci 0)))

/-- Divide every entry by 255 (the `[0,1]` normalisation). -/
def normalize255 (px : List (List (List Int))) : List (List (List Rat)) :=
  px.map (fun plane => plane.map (fun row => row.map (fun v => (v : Rat) / 255)))

/-- Output of the image fetcher. -/
structure ImgOut where
  img : List (List (List Rat))
  img_fine : Option (List (List (List Rat)))
  house : String
  view : String
deriving DecidableEq

/-- The `forward_img` fetch: try the jpg file, fall back to the png file, fail if
both are missing; repair malformed channel counts; optionally resize to
the fine resolution; resize to the coarse resolution; both outputs are
channel-first and divided by 255. -/
def forward_img (jpg png : Option RawImg) (output_fine_img : Bool)
    (resize : Nat × Nat → List (List (List Int)) → List (List (List Int)))
    (img_size img_size_fine : Nat × Nat) (house view_id : String) :
    Except String ImgOut :=
  match jpg, png with
  | none, none => .error "FileNotFoundError"
  | some raw, _ =>
    .ok (forward_img_core raw output_fine_img resize img_size img_size_fine house view_id)
  | none, some raw =>
    .ok (forward_img_core raw output_fine_img resize img_size img_size_fine house view_id)
where
  forward_img_core (raw : RawImg) (output_fine_img : Bool)
      (resize : Nat × Nat → List (List (List Int)) → List (List (List Int)))
      (img_size img_size_fine : Nat × Nat) (house view_id : String) : ImgOut :=
    let repaired := channelRepair raw
    let fine :=
      if output_fine_img then
        some (normalize255 (transposeCHW (resize img_size_fine repaired)))
      else none
    let img := normalize255 (transposeCHW (resize img_size repaired))
    ⟨img, fine, house, view_id⟩

/-! ## Object code fetcher: `SuncgDataset.forward_codes`

The external selector/encoder (`suncg_parse.select_ids_multi`,
`codify_room_data`) produces three parallel arrays: per-object codes,
per-object 2-D bounding boxes (1-indexed on disk), and selected node
ids.  Those arrays, and the random permutation drawn by
`np.random.permutation`, are inputs here. -/

/-- The `forward_codes` post-processing: shift every bounding-box coordinate
by −1, and if more objects than `max_rois` were selected, subsample all
three parallel arrays with the first `max_rois` entries of the given
permutation. -/
def forward_codes (max_rois : Nat) (objects_codes : List Int)
    (objects_bboxes : List (List Int)) (select_node_ids : List Int)
    (perm : List Nat) : List Int × List (List Int) × List Int :=
  let bboxes1 := objects_bboxes.map (fun b => b.map (fun x => x - 1))
  if max_rois < objects_codes.length then
    let select_inds := perm.take max_rois
    (select_inds.map (fun i => objects_codes.getD i 0),
     select_inds.map (fun i => bboxes1.getD i []),
     select_inds.map (fun i => select_node_ids.getD i 0))
  else
    (objects_codes, bboxes1, select_node_ids)

/-! ## Proposal fetchers -/

/-- Modelled from the spec: `suncg_parse.extract_proposal_codes` is not
part of the sources.  Per the spec it assigns each proposal box a label
by overlap with the ground truth (the assignment is abstracted as the
`labelOf`/`codeOf` arguments), optionally restricts to positive
proposals, caps the result at `max_proposals`, and returns the matched
codes, the selected proposal boxes, and the labels. -/
def extract_proposal_codes (codes_gt : List Int) (bboxes_gt : List (List Int))
    (bboxes_proposals : List (List Int)) (max_proposals : Nat)
    (only_pos_proposals : Bool) (labelOf codeOf : List Int → Int) :
    List Int × List (List Int) × List Int :=
  let labeled := bboxes_proposals.map (fun p => (p, labelOf p))
  let kept :=
    if only_pos_proposals then labeled.filter (fun pl => 0 < pl.2) else labeled
  let kept := kept.take max_proposals
  (kept.map (fun pl => codeOf pl.1), kept.map (fun pl => pl.1),
   kept.map (fun pl => pl.2))

/-- The box quad stored in a row of the on-disk proposals table
(`proposals_data['proposals'][:,0:4]`) shifted to 0-indexing. -/
def proposalBox (row : List Int) : List Int :=
  (row.take 4).map (fun x => x - 1)

/-- The `forward_proposals` fetch: load the proposal rows, keep the first four
columns, shift by −1, and delegate to `extract_proposal_codes`. -/
def forward_proposals (max_proposals : Nat) (only_pos_proposals : Bool)
    (codes_gt : List Int) (bboxes_gt : List (List Int))
    (proposals_disk : List (List Int)) (labelOf codeOf : List Int → Int) :
    List Int × List (List Int) × List Int :=
  let bboxes_proposals := proposals_disk.map proposalBox
  extract_proposal_codes codes_gt bboxes_gt bboxes_proposals
    max_proposals only_pos_proposals labelOf codeOf

/-- The `forward_test_proposals` fetch: the first four columns of every proposal
row, shifted by −1. -/
def forward_test_proposals (proposals_disk : List (List Int)) :
    List (List Int) :=
  proposals_disk.map proposalBox

/-! ## Affinity: `SuncgDataset.forward_affinity`

A `max_rois × max_rois` zero grid with entry (i,j) set to 1 whenever the
i-th node id of the first list equals the j-th of the second.  (The
Python writes into a fixed `max_rois × max_rois` numpy array; this grid
form is its value whenever both lists fit, the case produced by
`forward_codes`.) -/

/-- Entry (i,j) of the affinity matrix: 1 when both node ids exist and
are equal, 0 otherwise. -/
def affEntry (select_node_ids1 select_node_ids2 : List Int) (i j : Nat) : Nat :=
  match select_node_ids1.get? i, select_node_ids2.get? j with
  | some a, some b => if a = b then 1 else 0
  | _, _ => 0

/-- The affinity matrix as a `max_rois × max_rois` grid. -/
def forward_affinity (max_rois : Nat) (select_node_ids1 select_node_ids2 : List Int) :
    List (List Nat) :=
  (List.range max_rois).map (fun i =>
    (List.range max_rois).map (fun j =>
      affEntry select_node_ids1 select_node_ids2 i j))

/-- Entry (i,j) of a grid (0 outside the grid). -/
def gridEntry (g : List (List Nat)) (i j : Nat) : Nat :=
  (((g.get? i).getD []).get? j).getD 0

/-- Sum of all entries of a grid. -/
def gridSum (g : List (List Nat)) : Nat := (g.map List.sum).sum

/-! ## Sample assembly: `forward_single_item` and `__getitem__`

The configuration flags of the dataset object, and the per-view raw
inputs (decoded files, selector outputs, the random permutation, the
abstract proposal labelling) are explicit arguments. -/

/-- The configuration flags read by the dataset object. -/
structure Opts where
  output_fine_img : Bool
  output_codes : Bool
  output_layout : Bool
  output_voxels : Bool
  output_proposals : Bool
  output_test_proposals : Bool
  only_pos_proposals : Bool
  max_rois : Nat
  max_proposals : Nat

/-- The raw per-view inputs: decoded image, identifiers, layout and
voxel tokens, the selector/encoder outputs (three parallel arrays), the
random permutation drawn on cap overflow, the on-disk proposal rows and
the abstract proposal labelling. -/
structure ViewData where
  img : Int
  img_fine : Int
  house_name : String
  view_id : String
  layout : Int
  voxels : Int
  sel_codes : List Int
  sel_bboxes : List (List Int)
  sel_node_ids : List Int
  perm : List Nat
  proposals_disk : List (List Int)
  labelOf : List Int → Int
  codeOf : List Int → Int

/-- The object-code fetch of a view under a configuration (the
`forward_codes` call of `forward_single_item`). -/
def fetched_codes (o : Opts) (d : ViewData) :
    List Int × List (List Int) × List Int :=
  forward_codes o.max_rois d.sel_codes d.sel_bboxes d.sel_node_ids d.perm

/-- The ground-truth bounding boxes stored into the element. -/
def fetched_bboxes (o : Opts) (d : ViewData) : List (List Int) :=
  (fetched_codes o d).2.1

/-- The proposal labels computed by the `forward_proposals` call of
`forward_single_item` (meaningful when the codes output is on). -/
def fetched_labels (o : Opts) (d : ViewData) : List Int :=
  (forward_proposals o.max_proposals o.only_pos_proposals
    (fetched_codes o d).1 (fetched_codes o d).2.1
    d.proposals_disk d.labelOf d.codeOf).2.2

/-- The local-variable environment of `forward_single_item`: the
`valid` local starts unbound (`none`), as do `codes_gt`/`bboxes_gt`. -/
structure FsiState where
  valid : Option Bool
  elem : View
  codes_gt : Option (List Int)
  bboxes_gt : Option (List (List Int))

/-- The element as first populated: image, identifiers, then the
optional layout and voxels entries. -/
def baseElem (o : Opts) (d : ViewData) : View :=
  let elem : View := [("img", Val.vint d.img),
                      ("house_name", Val.vstr d.house_name),
                      ("view_id", Val.vstr d.view_id)]
  let elem := if o.output_layout then elem ++ [("layout", Val.vint d.layout)] else elem
  if o.output_voxels then elem ++ [("voxels", Val.vint d.voxels)] else elem

/-- The `if self.output_codes:` block: set `valid` to whether the
fetched bounding boxes are non-empty, store codes, bboxes and node ids,
and bind `codes_gt`/`bboxes_gt`. -/
def codesStep (o : Opts) (d : ViewData) (s : FsiState) : FsiState :=
  if o.output_codes then
    let r := fetched_codes o d
    let e := s.elem ++ [("codes", intsVal r.1), ("bboxes", boxesVal r.2.1),
                        ("select_node_ids", intsVal r.2.2)]
    { valid := some (r.2.1.length ≠ 0), elem := e,
      codes_gt := some r.1, bboxes_gt := some r.2.1 }
  else s

/-- The `if self.output_proposals:` block: reset `valid` to `True`, call
`forward_proposals` with the (possibly unbound) `codes_gt`/`bboxes_gt`
locals, set `valid` to `False` and blank the boxes and labels when the
labels are empty, and store the three proposal entries. -/
def proposalsStep (o : Opts) (d : ViewData) (s : FsiState) :
    Except String FsiState :=
  if o.output_proposals then
    match s.codes_gt, s.bboxes_gt with
    | some cg, some bg =>
      let r := forward_proposals o.max_proposals o.only_pos_proposals
        cg bg d.proposals_disk d.labelOf d.codeOf
      if r.2.2.length = 0 then
        .ok { s with
                valid := some false,
                elem := s.elem ++ [("codes_proposals", intsVal r.1),
                                   ("bboxes_proposals", Val.vlist []),
                                   ("labels_proposals", Val.vlist [])] }
      else
        .ok { s with
                valid := some true,
                elem := s.elem ++ [("codes_proposals", intsVal r.1),
                                   ("bboxes_proposals", boxesVal r.2.1),
                                   ("labels_proposals", intsVal r.2.2)] }
    | _, _ => .error "UnboundLocalError: codes_gt"
  else .ok s

/-- The `if self.output_test_proposals:` block: fetch the test
proposals; when their numpy size is 0, set `valid` to `False` and store
an empty list, otherwise store them (leaving `valid` untouched). -/
def testProposalsStep (o : Opts) (d : ViewData) (s : FsiState) : FsiState :=
  if o.output_test_proposals then
    let tb := forward_test_proposals d.proposals_disk
    if npSize2 tb = 0 then
      { s with
          valid := some false,
          elem := s.elem ++ [("bboxes_test_proposals", Val.vlist [])] }
    else
      { s with elem := s.elem ++ [("bboxes_test_proposals", boxesVal tb)] }
  else s

/-- The tail of `forward_single_item`: append the fine image and return
`(valid, elem)`; reading a never-bound `valid` raises. -/
def finalizeStep (o : Opts) (d : ViewData) (s : FsiState) :
    Except String (Bool × View) :=
  let e := if o.output_fine_img then s.elem ++ [("img_fine", Val.vint d.img_fine)] else s.elem
  match s.valid with
  | some v => .ok (v, e)
  | none => .error "UnboundLocalError: valid"

/-- The `forward_single_item` assembler: build the element dictionary block by block
and return the validity flag with it. -/
def forward_single_item (o : Opts) (d : ViewData) : Except String (Bool × View) :=
  let s0 : FsiState := ⟨none, baseElem o d, none, none⟩
  let s1 := codesStep o d s0
  match proposalsStep o d s1 with
  | .error e => .error e
  | .ok s2 => finalizeStep o d (testProposalsStep o d s2)

/-- One loaded sample: validity flag, the two per-view elements, and
the ground-truth affinity grid. -/
structure Sample where
  valid : Bool
  view_a : View
  view_b : View
  gt_affinity : List (List Nat)

/-- The `__getitem__` fetch: fetch both views, AND their validity flags, read
each element's `select_node_ids` entry (KeyError if absent) and compute
the affinity grid. -/
def getitem (o : Opts) (d1 d2 : ViewData) : Except String Sample :=
  match forward_single_item o d1 with
  | .error e => .error e
  | .ok (valid_1, elem1) =>
    match forward_single_item o d2 with
    | .error e => .error e
    | .ok (valid_2, elem2) =>
      match lookupKey elem1 "select_node_ids", lookupKey elem2 "select_node_ids" with
      | some n1, some n2 =>
        .ok ⟨valid_1 && valid_2, elem1, elem2,
             forward_affinity o.max_rois (valToInts n1) (valToInts n2)⟩
      | _, _ => .error "KeyError: select_node_ids"

/-! ## Batch collation: `collate_fn`

`recursive_convert_to_torch` only re-wraps values (numpy to torch); on
this value model it is the identity and is folded into the collation. -/

/-- The collated batch: the `empty` marker, and the affinity stack and
flattened views when the batch is non-empty. -/
structure Batch where
  empty : Bool
  gt_affinity : Option (List (List (List Nat)))
  views : Option View

/-- The ragged per-object fields, collated (and later concatenated) as
plain lists of per-sample entries. -/
def raggedKeys : List String := ["codes", "bboxes", "codes_proposals",
  "bboxes_proposals", "bboxes_test_proposals"]

/-- The identifier fields, whose `default_collate` result is a list. -/
def idKeys : List String := ["house_name", "view_id"]

/-- The dense fields concatenated with `torch.cat` at the final step. -/
def catKeys : List String := ["img", "img_fine", "labels_proposals"]

/-- Read one key from every kept sample's view (KeyError on absence). -/
def getVals (kept : List Sample) (pick : Sample → View) (key : String) :
    Except String (List Val) :=
  exMapM (fun s =>
    match lookupKey (pick s) key with
    | some v => .ok v
    | none => .error "KeyError") kept

/-- Collate one key across the kept samples within one view slot:
ragged fields become a list of per-sample entries; `labels_proposals`
concatenates the non-empty per-sample entries (`torch.cat` raises on an
empty tuple); `select_node_ids` is dropped; every other field goes
through `default_collate`, modelled as stacking into a list. -/
def collateKey (kept : List Sample) (pick : Sample → View) (key : String) :
    Except String (Option (String × Val)) :=
  if key ∈ raggedKeys then
    match getVals kept pick key with
    | .error e => .error e
    | .ok vs => .ok (some (key, Val.vlist vs))
  else if key = "labels_proposals" then
    match getVals kept pick key with
    | .error e => .error e
    | .ok vs =>
      let ne := vs.filter (fun v => valSize v ≠ 0)
      if ne.isEmpty then .error "RuntimeError: cat on an empty tuple"
      else .ok (some (key, Val.vlist ((ne.map valItems).flatten)))
  else if key = "select_node_ids" then .ok none
  else
    match getVals kept pick key with
    | .error e => .error e
    | .ok vs => .ok (some (key, Val.vlist vs))

/-- Collate one view slot: walk the keys of the first kept sample's
element in order, keeping the collated entries. -/
def collateView (kept : List Sample) (pick : Sample → View) :
    List String → Except String View
  | [] => .ok []
  | k :: ks =>
    match collateKey kept pick k with
    | .error e => .error e
    | .ok none => collateView kept pick ks
    | .ok (some kv) =>
      match collateView kept pick ks with
      | .error e => .error e
      | .ok rest => .ok (kv :: rest)

/-- The final view-concatenation step for one key: ragged and
identifier fields chain into one `2N`-length list, dense fields
concatenate along the batch axis (also an append on this model), and
any other key is a `ValueError`. -/
def concatKey (va vb : View) (key : String) : Except String (String × Val) :=
  if key ∈ raggedKeys ∨ key ∈ idKeys then
    match lookupKey va key, lookupKey vb key with
    | some x, some y => .ok (key, Val.vlist (valItems x ++ valItems y))
    | _, _ => .error "KeyError"
  else if key ∈ catKeys then
    match lookupKey va key, lookupKey vb key with
    | some x, some y => .ok (key, Val.vlist (valItems x ++ valItems y))
    | _, _ => .error "KeyError"
  else .error "ValueError"

/-- The key list of a view. -/
def keysOf (v : View) : List String := v.map (fun kv => kv.1)

/-- The `collate_fn` collator: drop the invalid samples; if none survive return the
`empty` marker batch; otherwise stack the affinity grids, collate the
two view slots keyed by the first kept sample's elements, and run the
final view concatenation over the first collated view's keys. -/
def collate_fn (batch : List Sample) : Except String Batch :=
  match batch.filter (fun s => s.valid) with
  | [] => .ok ⟨true, none, none⟩
  | s0 :: rest =>
    let kept := s0 :: rest
    let aff := kept.map (fun s => s.gt_affinity)
    match collateView kept (fun s => s.view_a) (keysOf s0.view_a) with
    | .error e => .error e
    | .ok ca =>
      match collateView kept (fun s => s.view_b) (keysOf s0.view_b) with
      | .error e => .error e
      | .ok cb =>
        match exMapM (concatKey ca cb) (keysOf ca) with
        | .error e => .error e
        | .ok concat_views => .ok ⟨false, some aff, some concat_views⟩

/-! ## Concrete instances used by the closed statements below -/

/-- The claim-side view-invalidity rule, read off the spec sentence: a
view is invalid exactly when object-code output is enabled and the
fetched bounding-box list is empty, or proposal output is enabled and
the proposal-label result is empty, or test-proposal output is enabled
and the fetched proposal-box array is empty. -/
def spec_view_invalid (o : Opts) (d : ViewData) : Bool :=
  (o.output_codes && (fetched_bboxes o d).length == 0)
  || (o.output_proposals && (fetched_labels o d).length == 0)
  || (o.output_test_proposals && npSize2 (forward_test_proposals d.proposals_disk) == 0)

/-- The view-invalidity rule the code implements: the proposals block
reassigns the validity flag, so an empty object-code result only
invalidates the view when proposal output is disabled; the test-proposal
check only ever clears the flag. -/
def amended_view_invalid (o : Opts) (d : ViewData) : Bool :=
  (o.output_test_proposals && decide (npSize2 (forward_test_proposals d.proposals_disk) = 0))
  || (o.output_proposals && decide (fetched_labels o d = []))
  || (!o.output_proposals && o.output_codes && decide (fetched_bboxes o d = []))

/-- Configuration with codes and proposals on and the positive-only
proposal restriction off (fine image, layout, voxels, test proposals
off): with the restriction off, every proposal is kept and labelled,
so the label result is non-empty whenever the proposal file is. -/
def optsCodesProps : Opts :=
  ⟨false, true, false, false, true, false, false, 4, 4⟩

/-- View input whose selector found no objects but whose proposal file
has one row.  With zero ground-truth objects, labelling by overlap
gives the proposal the background label 0 (not a positive label), and
the matched code is a default 0: both consistent with an empty
ground-truth set. -/
def viewNoObjects : ViewData :=
  ⟨11, 12, "h", "000001", 0, 0, [], [], [], [], [[1, 1, 5, 5, 9]],
   fun _ => 0, fun _ => 0⟩

/-- Configuration with only test-proposal output on. -/
def optsTestOnly : Opts :=
  ⟨false, false, false, false, false, true, true, 4, 4⟩

/-- View input with an empty proposal file. -/
def viewEmptyDisk : ViewData :=
  ⟨11, 12, "h", "000001", 0, 0, [], [], [], [], [],
   fun _ => 1, fun _ => 42⟩

/-- A per-view element of the shape produced with codes output on. -/
def mkView (pre : String) (tag : Int) : View :=
  [("img", Val.vint tag), ("house_name", Val.vstr "h"),
   ("view_id", Val.vstr (pre ++ toString tag)),
   ("codes", Val.vlist [Val.vint tag]),
   ("bboxes", Val.vlist [Val.vlist [Val.vint 1]]),
   ("select_node_ids", Val.vlist [Val.vint 5])]

/-- A sample with the given validity flag and tag. -/
def mkSample (valid : Bool) (tag : Int) : Sample :=
  ⟨valid, mkView "a" tag, mkView "b" tag, [[1]]⟩

/-- The validity pattern (valid, valid, invalid, valid). -/
def c2batch : List Sample :=
  [mkSample true 0, mkSample true 1, mkSample false 2, mkSample true 3]

/-- A sample whose elements carry a `layout` entry, a field the final
view-concatenation step does not know. -/
def layoutSample : Sample :=
  ⟨true, mkView "a" 0 ++ [("layout", Val.vint 3)],
         mkView "b" 0 ++ [("layout", Val.vint 3)], [[1]]⟩

/-- The batch `collate_fn c2batch` produces: three samples kept in
order, every per-field view list of length 6 ordered all view_a entries
then all view_b entries, and three stacked affinity grids. -/
def c2expected : Batch :=
  ⟨false,
   some [[[1]], [[1]], [[1]]],
   some
    [("img", Val.vlist [Val.vint 0, Val.vint 1, Val.vint 3,
                        Val.vint 0, Val.vint 1, Val.vint 3]),
     ("house_name", Val.vlist [Val.vstr "h", Val.vstr "h", Val.vstr "h",
                               Val.vstr "h", Val.vstr "h", Val.vstr "h"]),
     ("view_id", Val.vlist [Val.vstr "a0", Val.vstr "a1", Val.vstr "a3",
                            Val.vstr "b0", Val.vstr "b1", Val.vstr "b3"]),
     ("codes", Val.vlist [Val.vlist [Val.vint 0], Val.vlist [Val.vint 1],
                          Val.vlist [Val.vint 3], Val.vlist [Val.vint 0],
                          Val.vlist [Val.vint 1], Val.vlist [Val.vint 3]]),
     ("bboxes", Val.vlist [Val.vlist [Val.vlist [Val.vint 1]],
                           Val.vlist [Val.vlist [Val.vint 1]],
                           Val.vlist [Val.vlist [Val.vint 1]],
                           Val.vlist [Val.vlist [Val.vint 1]],
                           Val.vlist [Val.vlist [Val.vint 1]],
                           Val.vlist [Val.vlist [Val.vint 1]]])]⟩

/-! ## Helper lemmas -/

theorem exMapM_isErr_of_mem {α β : Type} {f : α → Except String β}
    {l : List α} {x : α} (hx : x ∈ l) (he : isErr (f x) = true) :
    isErr (exMapM f l) = true := by
  induction l with
  | nil => cases hx
  | cons a as ih =>
    rcases List.mem_cons.mp hx with h | h
    · subst h
      cases hfa : f x with
      | error e => simp [exMapM, hfa, isErr]
      | ok b => rw [hfa] at he; simp [isErr] at he
    · cases hfa : f a with
      | error e => simp [exMapM, hfa, isErr]
      | ok b =>
        have hrec := ih h
        cases hm : exMapM f as with
        | error e => simp [exMapM, hfa, hm, isErr]
        | ok bs => rw [hm] at hrec; simp [isErr] at hrec

theorem exMapM_ok_exists {α β : Type} {f : α → Except String β}
    {l : List α} {out : List β} (h : exMapM f l = .ok out) {x : α}
    (hx : x ∈ l) : ∃ y, f x = .ok y := by
  induction l generalizing out with
  | nil => cases hx
  | cons a as ih =>
    rcases List.mem_cons.mp hx with hh | hh
    · subst hh
      cases hfa : f x with
      | error e => rw [exMapM, hfa] at h; cases h
      | ok b => exact ⟨b, rfl⟩
    · cases hfa : f a with
      | error e => rw [exMapM, hfa] at h; cases h
      | ok b =>
        rw [exMapM, hfa] at h
        cases hm : exMapM f as with
        | error e => rw [hm] at h; cases h
        | ok bs => exact ih hm hh

theorem lookupKey_append (xs ys : View) (k : String) :
    lookupKey (xs ++ ys) k =
      match lookupKey xs k with
      | some v => some v
      | none => lookupKey ys k := by
  induction xs with
  | nil => simp [lookupKey]
  | cons p rest ih =>
    by_cases hk : p.1 = k
    · simp [lookupKey, hk]
    · simp [lookupKey, hk, ih]

/-! ## Claim C9: image fetch determinism -/

/-- C9: the image fetch is deterministic: with the same on-disk file
contents (and the same resampling), two fetches for the same
(scene, view) return identical output arrays.  The fetch is a pure
function of the decoded files, so the two results coincide. -/
theorem C9_forward_img_deterministic :
    ∀ (jpg png : Option RawImg) (output_fine_img : Bool)
      (resize : Nat × Nat → List (List (List Int)) → List (List (List Int)))
      (img_size img_size_fine : Nat × Nat) (house view_id : String),
      forward_img jpg png output_fine_img resize img_size img_size_fine house view_id
        = forward_img jpg png output_fine_img resize img_size img_size_fine house view_id :=
  fun _ _ _ _ _ _ _ _ => rfl

/-! ## Claim C6: split-file parsing -/

theorem parse_line_short {line : String}
    (h : (pySplit ' ' line).length < 9) : isErr (parse_line line) = true := by
  have h8 : (pySplit ' ' line).get? 8 = none := List.get?_eq_none.mpr (by omega)
  unfold parse_line
  rw [h8]
  cases h0 : (pySplit ' ' line).get? 0 <;> simp [isErr]

/-- C6: the split index skips the first 3 lines and maps each data line
to (second-to-last path segment of field 0, first 6 characters of the
filenames in fields 0 and 8); the given 3-header one-data-line file
yields exactly [("X", "000001", "000009")], and any remaining line with
fewer than 9 space-separated fields makes parsing fail with a
propagated error. -/
theorem C6_parse_split_file :
    parse_split_file ["header 1", "header 2", "header 3",
        "/renderings/X/000001_mlt.jpg f1 f2 f3 f4 f5 f6 f7 /renderings/X/000009_mlt.jpg"]
      = Except.ok [("X", "000001", "000009")]
  ∧ ∀ (lines : List String) (line : String), line ∈ lines.drop 3 →
      (pySplit ' ' line).length < 9 → isErr (parse_split_file lines) = true := by
  refine ⟨rfl, fun lines line hmem hshort => ?_⟩
  exact exMapM_isErr_of_mem hmem (parse_line_short hshort)

theorem C6_parse_split_file_witness :
    isErr (parse_split_file ["h 1", "h 2", "h 3", "only three fields"]) = true :=
  C6_parse_split_file.2 ["h 1", "h 2", "h 3", "only three fields"]
    "only three fields" (List.mem_singleton.mpr rfl)
    (by have h3 : (pySplit ' ' "only three fields").length = 3 := rfl; omega)

/-! ## Claim C4: object-code capacity invariant -/

/-- C4: the object-code fetch returns lists of length at most
`max_rois`; with at most `max_rois` selected objects nothing is
subsampled (the node ids are returned as an exact order-preserving
copy); with more, all three parallel arrays are subsampled with the
same selected indices (the first `max_rois` entries of the drawn
permutation) and have length exactly `max_rois`. -/
theorem C4_forward_codes (max_rois : Nat) (objects_codes : List Int)
    (objects_bboxes : List (List Int)) (select_node_ids : List Int)
    (perm : List Nat)
    (hb : objects_bboxes.length = objects_codes.length)
    (hn : select_node_ids.length = objects_codes.length)
    (hp : List.Perm perm (List.range objects_codes.length)) :
    ((forward_codes max_rois objects_codes objects_bboxes select_node_ids perm).1.length ≤ max_rois
      ∧ (forward_codes max_rois objects_codes objects_bboxes select_node_ids perm).2.1.length ≤ max_rois
      ∧ (forward_codes max_rois objects_codes objects_bboxes select_node_ids perm).2.2.length ≤ max_rois)
  ∧ (objects_codes.length ≤ max_rois →
      forward_codes max_rois objects_codes objects_bboxes select_node_ids perm
        = (objects_codes,
           objects_bboxes.map (fun b => b.map (fun x => x - 1)),
           select_node_ids))
  ∧ (max_rois < objects_codes.length →
      (forward_codes max_rois objects_codes objects_bboxes select_node_ids perm).1
          = (perm.take max_rois).map (fun i => objects_codes.getD i 0)
      ∧ (forward_codes max_rois objects_codes objects_bboxes select_node_ids perm).2.1
          = (perm.take max_rois).map
              (fun i => (objects_bboxes.map (fun b => b.map (fun x => x - 1))).getD i [])
      ∧ (forward_codes max_rois objects_codes objects_bboxes select_node_ids perm).2.2
          = (perm.take max_rois).map (fun i => select_node_ids.getD i 0)
      ∧ (forward_codes max_rois objects_codes objects_bboxes select_node_ids perm).1.length = max_rois
      ∧ (forward_codes max_rois objects_codes objects_bboxes select_node_ids perm).2.1.length = max_rois
      ∧ (forward_codes max_rois objects_codes objects_bboxes select_node_ids perm).2.2.length = max_rois) := by
  have hperm_len : perm.length = objects_codes.length := by
    simpa using hp.length_eq
  by_cases hlt : max_rois < objects_codes.length
  · have hfc : forward_codes max_rois objects_codes objects_bboxes select_node_ids perm
        = ((perm.take max_rois).map (fun i => objects_codes.getD i 0),
           (perm.take max_rois).map
             (fun i => (objects_bboxes.map (fun b => b.map (fun x => x - 1))).getD i []),
           (perm.take max_rois).map (fun i => select_node_ids.getD i 0)) := by
      simp only [forward_codes, if_pos hlt]
    have htake : (perm.take max_rois).length = max_rois := by
      rw [List.length_take, hperm_len]
      omega
    rw [hfc]
    simp only [List.length_map, htake]
    exact ⟨⟨le_refl _, le_refl _, le_refl _⟩,
           fun hle => absurd hle (by omega),
           fun _ => by simp⟩
  · have hle : objects_codes.length ≤ max_rois := by omega
    have hfc : forward_codes max_rois objects_codes objects_bboxes select_node_ids perm
        = (objects_codes,
           objects_bboxes.map (fun b => b.map (fun x => x - 1)),
           select_node_ids) := by
      simp only [forward_codes, if_neg hlt]
    rw [hfc]
    refine ⟨⟨hle, ?_, ?_⟩, fun _ => rfl, fun hcon => absurd hcon hlt⟩
    · simpa [hb] using hle
    · simpa [hn] using hle

theorem C4_forward_codes_witness :
    (forward_codes 2 [10, 20, 30] [[1], [2], [3]] [7, 8, 9] [2, 0, 1]).1.length ≤ 2 :=
  (C4_forward_codes 2 [10, 20, 30] [[1], [2], [3]] [7, 8, 9] [2, 0, 1]
    (by decide) (by decide) (by decide)).1.1

/-! ## Claim C7: 1-indexed to 0-indexed bounding boxes -/

/-- C7: every bounding box returned by the object-code fetch is an
on-disk box with 1 subtracted from every coordinate, and every box
returned by the proposal fetch and the test-proposal fetch is the box
quad of an on-disk proposal row with 1 subtracted from every
coordinate. -/
theorem C7_bbox_zero_indexed :
    (∀ (max_rois : Nat) (objects_codes : List Int)
       (objects_bboxes : List (List Int)) (select_node_ids : List Int)
       (perm : List Nat),
       objects_bboxes.length = objects_codes.length →
       List.Perm perm (List.range objects_codes.length) →
       ∀ b ∈ (forward_codes max_rois objects_codes objects_bboxes select_node_ids perm).2.1,
         ∃ b0 ∈ objects_bboxes, b = b0.map (fun x => x - 1))
  ∧ (∀ proposals_disk : List (List Int),
       ∀ b ∈ forward_test_proposals proposals_disk,
         ∃ r ∈ proposals_disk, b = (r.take 4).map (fun x => x - 1))
  ∧ (∀ (max_proposals : Nat) (only_pos_proposals : Bool)
       (codes_gt : List Int) (bboxes_gt : List (List Int))
       (proposals_disk : List (List Int)) (labelOf codeOf : List Int → Int),
       ∀ b ∈ (forward_proposals max_proposals only_pos_proposals codes_gt
                bboxes_gt proposals_disk labelOf codeOf).2.1,
         ∃ r ∈ proposals_disk, b = (r.take 4).map (fun x => x - 1)) := by
  refine ⟨?_, ?_, ?_⟩
  · intro max_rois objects_codes objects_bboxes select_node_ids perm hb hp b hmem
    by_cases hlt : max_rois < objects_codes.length
    · simp only [forward_codes, if_pos hlt] at hmem
      rcases List.mem_map.mp hmem with ⟨i, hi, hrep⟩
      have hi_perm : i ∈ perm := List.mem_of_mem_take hi
      have hi_lt : i < objects_codes.length := by
        have := (hp.mem_iff).mp hi_perm
        simpa [List.mem_range] using this
      have hi_lt' : i < (objects_bboxes.map (fun b => b.map (fun x => x - 1))).length := by
        simpa [hb] using hi_lt
      have hget : (objects_bboxes.map (fun b => b.map (fun x => x - 1))).getD i []
          = (objects_bboxes.map (fun b => b.map (fun x => x - 1))).get ⟨i, hi_lt'⟩ := by
        rw [List.getD_eq_get?, List.get?_eq_get hi_lt']
        rfl
      have hmem' : (objects_bboxes.map (fun b => b.map (fun x => x - 1))).get ⟨i, hi_lt'⟩
          ∈ objects_bboxes.map (fun b => b.map (fun x => x - 1)) :=
        List.get_mem _ _ _
      rcases List.mem_map.mp hmem' with ⟨b0, hb0, hb0eq⟩
      exact ⟨b0, hb0, by rw [← hrep, hget, ← hb0eq]⟩
    · simp only [forward_codes, if_neg hlt] at hmem
      rcases List.mem_map.mp hmem with ⟨b0, hb0, hb0eq⟩
      exact ⟨b0, hb0, hb0eq.symm⟩
  · intro proposals_disk b hmem
    rcases List.mem_map.mp hmem with ⟨r, hr, hreq⟩
    exact ⟨r, hr, by rw [← hreq]; rfl⟩
  · intro max_proposals only_pos codes_gt bboxes_gt proposals_disk labelOf codeOf b hmem
    simp only [forward_proposals, extract_proposal_codes] at hmem
    rcases List.mem_map.mp hmem with ⟨pl, hpl, hpleq⟩
    have hpl' := List.mem_of_mem_take hpl
    have hpl_lab : pl ∈ (proposals_disk.map proposalBox).map (fun p => (p, labelOf p)) := by
      by_cases hop : only_pos = true
      · rw [if_pos hop] at hpl'
        exact List.mem_of_mem_filter hpl'
      · rw [if_neg hop] at hpl'
        exact hpl'
    rcases List.mem_map.mp hpl_lab with ⟨p, hp, hpeq⟩
    rcases List.mem_map.mp hp with ⟨r, hr, hreq⟩
    refine ⟨r, hr, ?_⟩
    rw [← hpleq, ← hpeq, ← hreq]
    rfl

theorem C7_bbox_zero_indexed_witness :
    ∃ b0 ∈ ([[1], [2], [3]] : List (List Int)),
      ([2] : List Int) = b0.map (fun x => x - 1) :=
  C7_bbox_zero_indexed.1 2 [10, 20, 30] [[1], [2], [3]] [7, 8, 9] [2, 0, 1]
    (by decide) (by decide) [2] (by decide)

/-! ## Claim C5: all-invalid batch -/

/-- C5: collating a list in which every sample's validity flag is false
returns the `empty` marker batch with no affinity and no views. -/
theorem C5_collate_all_invalid (batch : List Sample)
    (h : ∀ s ∈ batch, s.valid = false) :
    collate_fn batch = .ok ⟨true, none, none⟩ := by
  have hf : batch.filter (fun s => s.valid) = [] :=
    List.filter_eq_nil.mpr (fun a ha => by simp [h a ha])
  unfold collate_fn
  rw [hf]

theorem C5_collate_all_invalid_witness :
    collate_fn [mkSample false 0, mkSample false 7] = .ok ⟨true, none, none⟩ :=
  C5_collate_all_invalid [mkSample false 0, mkSample false 7]
    (by intro s hs
        rcases List.mem_cons.mp hs with h | h
        · subst h; rfl
        · rcases List.mem_singleton.mp h with rfl; rfl)

/-! ## Claim C3: affinity matrix -/

theorem listMapRangeSum (n : Nat) (f : Nat → Nat) :
    ((List.range n).map f).sum = ∑ i in Finset.range n, f i := by
  induction n with
  | zero => simp
  | succ m ih =>
    rw [List.range_succ, List.map_append, List.sum_append,
        Finset.sum_range_succ, ih]
    simp

theorem affEntry_some_left {a b : List Int} {i : Nat} {x : Int}
    (h : a.get? i = some x) (j : Nat) :
    affEntry a b i j = if b.get? j = some x then 1 else 0 := by
  unfold affEntry
  rw [h]
  cases hb : b.get? j with
  | none => simp
  | some y =>
    by_cases hxy : x = y
    · subst hxy; simp
    · have hyx : ¬ (y = x) := fun hh => hxy hh.symm
      simp only [if_neg hxy, Option.some.injEq, if_neg hyx]

theorem affEntry_none_left {a : List Int} (b : List Int) {i : Nat}
    (h : a.get? i = none) (j : Nat) : affEntry a b i j = 0 := by
  unfold affEntry
  rw [h]

theorem affEntry_none_right (a : List Int) {b : List Int} {j : Nat}
    (h : b.get? j = none) (i : Nat) : affEntry a b i j = 0 := by
  unfold affEntry
  rw [h]
  cases a.get? i <;> rfl

theorem affEntry_comm (a b : List Int) (i j : Nat) :
    affEntry a b i j = affEntry b a j i := by
  unfold affEntry
  cases ha : a.get? i <;> cases hb : b.get? j
  · rfl
  · rfl
  · rfl
  · rename_i x y
    show (if x = y then 1 else 0) = (if y = x then 1 else 0)
    by_cases hxy : x = y
    · subst hxy; rfl
    · rw [if_neg hxy, if_neg (fun hh => hxy hh.symm)]

theorem affRow_le_one {b : List Int} (hd : b.Nodup) (m : Nat)
    {a : List Int} {i : Nat} {x : Int} (h : a.get? i = some x) :
    ∑ j in Finset.range m, affEntry a b i j ≤ 1 := by
  have hrw : ∑ j in Finset.range m, affEntry a b i j
      = ∑ j in Finset.range m, if b.get? j = some x then 1 else 0 :=
    Finset.sum_congr rfl (fun j _ => affEntry_some_left h j)
  rw [hrw, ← Finset.card_filter]
  apply Finset.card_le_one.mpr
  intro j1 hj1 j2 hj2
  have h1 := (Finset.mem_filter.mp hj1).2
  have h2 := (Finset.mem_filter.mp hj2).2
  have hlt : j1 < b.length := by
    by_contra hc
    rw [List.get?_eq_none.mpr (by omega)] at h1
    cases h1
  exact List.get?_inj hlt hd (h1.trans h2.symm)

theorem affSum_le_left {b : List Int} (hd : b.Nodup) (m : Nat) (a : List Int) :
    (∑ i in Finset.range m, ∑ j in Finset.range m, affEntry a b i j) ≤ a.length := by
  have hbound : ∀ i ∈ Finset.range m,
      (∑ j in Finset.range m, affEntry a b i j) ≤ if i < a.length then 1 else 0 := by
    intro i _
    by_cases hi : i < a.length
    · rw [if_pos hi]
      exact affRow_le_one hd m (List.get?_eq_get hi)
    · rw [if_neg hi]
      have hnone : a.get? i = none := List.get?_eq_none.mpr (by omega)
      simp [affEntry_none_left b hnone]
  refine le_trans (Finset.sum_le_sum hbound) ?_
  rw [← Finset.card_filter]
  refine le_trans (Finset.card_le_card ?_) (le_of_eq (Finset.card_range a.length))
  intro j hj
  exact Finset.mem_range.mpr (Finset.mem_filter.mp hj).2

theorem gridSum_forward_affinity (m : Nat) (a b : List Int) :
    gridSum (forward_affinity m a b)
      = ∑ i in Finset.range m, ∑ j in Finset.range m, affEntry a b i j := by
  unfold gridSum forward_affinity
  rw [List.map_map]
  have hcomp : (List.sum ∘ fun i => (List.range m).map (fun j => affEntry a b i j))
      = fun i => ∑ j in Finset.range m, affEntry a b i j := by
    funext i
    exact listMapRangeSum m (fun j => affEntry a b i j)
  rw [hcomp, listMapRangeSum]

/-- C3 counterexample: the claim quantifies over every pair of
selected-node-id lists, but with a repeated node id in one list the sum
bound fails: for lists [0, 0] and [0] the affinity sum is 2 while the
minimum length is 1. -/
theorem C3_affinity_sum_counterexample :
    ¬ (gridSum (forward_affinity 2 [0, 0] [0])
        ≤ min ([0, 0] : List Int).length ([0] : List Int).length) := by
  decide

/-- C3 (amended): for selected-node-id lists that fit the configured
capacity and have no repeated node id (one object code per scene-graph
node), the affinity grid is `max_rois × max_rois`, entry (i, j) is 1
exactly when the i-th node id of view_a equals the j-th of view_b and 0
otherwise, entries outside the two lists are zero padding, and the sum
of all entries is at most the minimum of the two list lengths. -/
theorem C3_forward_affinity (max_rois : Nat) (select_node_ids1 select_node_ids2 : List Int)
    (h1 : select_node_ids1.length ≤ max_rois)
    (h2 : select_node_ids2.length ≤ max_rois)
    (hd1 : select_node_ids1.Nodup) (hd2 : select_node_ids2.Nodup) :
    (forward_affinity max_rois select_node_ids1 select_node_ids2).length = max_rois
  ∧ (∀ row ∈ forward_affinity max_rois select_node_ids1 select_node_ids2,
      row.length = max_rois)
  ∧ (∀ (i j : Nat) (hi : i < select_node_ids1.length) (hj : j < select_node_ids2.length),
      gridEntry (forward_affinity max_rois select_node_ids1 select_node_ids2) i j
        = if select_node_ids1.get ⟨i, hi⟩ = select_node_ids2.get ⟨j, hj⟩ then 1 else 0)
  ∧ (∀ i j : Nat, i < max_rois → j < max_rois →
      select_node_ids1.length ≤ i ∨ select_node_ids2.length ≤ j →
      gridEntry (forward_affinity max_rois select_node_ids1 select_node_ids2) i j = 0)
  ∧ gridSum (forward_affinity max_rois select_node_ids1 select_node_ids2)
      ≤ min select_node_ids1.length select_node_ids2.length := by
  have hentry : ∀ i j : Nat, i < max_rois → j < max_rois →
      gridEntry (forward_affinity max_rois select_node_ids1 select_node_ids2) i j
        = affEntry select_node_ids1 select_node_ids2 i j := by
    intro i j hi hj
    unfold gridEntry forward_affinity
    rw [List.get?_map, List.get?_range hi]
    show (((List.range max_rois).map
      (fun j => affEntry select_node_ids1 select_node_ids2 i j)).get? j).getD 0 = _
    rw [List.get?_map, List.get?_range hj]
    rfl
  refine ⟨?_, ?_, ?_, ?_, ?_⟩
  · simp [forward_affinity]
  · intro row hrow
    rcases List.mem_map.mp hrow with ⟨i, _, hrep⟩
    simp [← hrep]
  · intro i j hi hj
    rw [hentry i j (by omega) (by omega)]
    unfold affEntry
    rw [List.get?_eq_get hi, List.get?_eq_get hj]
  · intro i j hi hj hout
    rw [hentry i j hi hj]
    rcases hout with h | h
    · exact affEntry_none_left _ (List.get?_eq_none.mpr h) j
    · exact affEntry_none_right _ (List.get?_eq_none.mpr h) i
  · rw [gridSum_forward_affinity]
    refine le_min (affSum_le_left hd2 max_rois select_node_ids1) ?_
    rw [Finset.sum_comm]
    have hswap : ∀ j ∈ Finset.range max_rois, ∀ i ∈ Finset.range max_rois,
        affEntry select_node_ids1 select_node_ids2 i j
          = affEntry select_node_ids2 select_node_ids1 j i :=
      fun j _ i _ => affEntry_comm _ _ i j
    calc ∑ j in Finset.range max_rois, ∑ i in Finset.range max_rois,
            affEntry select_node_ids1 select_node_ids2 i j
        = ∑ j in Finset.range max_rois, ∑ i in Finset.range max_rois,
            affEntry select_node_ids2 select_node_ids1 j i :=
          Finset.sum_congr rfl (fun j hj => Finset.sum_congr rfl (hswap j hj))
      _ ≤ select_node_ids2.length := affSum_le_left hd1 max_rois select_node_ids2

theorem C3_forward_affinity_witness :
    gridSum (forward_affinity 3 [4, 9] [9, 5]) ≤ min ([4, 9] : List Int).length ([9, 5] : List Int).length :=
  (C3_forward_affinity 3 [4, 9] [9, 5] (by decide) (by decide)
    (by decide) (by decide)).2.2.2.2

/-! ## Claim C8: unknown fields abort concatenation -/

theorem collate_fn_cons {batch : List Sample} {s0 : Sample}
    {rest : List Sample}
    (hf : batch.filter (fun s => s.valid) = s0 :: rest) :
    collate_fn batch =
      match collateView (s0 :: rest) (fun s => s.view_a) (keysOf s0.view_a) with
      | .error e => .error e
      | .ok ca =>
        match collateView (s0 :: rest) (fun s => s.view_b) (keysOf s0.view_b) with
        | .error e => .error e
        | .ok cb =>
          match exMapM (concatKey ca cb) (keysOf ca) with
          | .error e => .error e
          | .ok concat_views =>
            .ok ⟨false, some ((s0 :: rest).map (fun s => s.gt_affinity)),
                 some concat_views⟩ := by
  unfold collate_fn
  rw [hf]

theorem collateView_ok_key {kept : List Sample} {pick : Sample → View}
    {keys : List String} {ca : View}
    (h : collateView kept pick keys = .ok ca) {k : String} (hk : k ∈ keys) :
    ∃ r, collateKey kept pick k = .ok r ∧ ∀ kv, r = some kv → kv ∈ ca := by
  induction keys generalizing ca with
  | nil => cases hk
  | cons a as ih =>
    unfold collateView at h
    rcases List.mem_cons.mp hk with hka | hkas
    · subst hka
      cases hck : collateKey kept pick k with
      | error e => rw [hck] at h; cases h
      | ok r =>
        rw [hck] at h
        refine ⟨r, rfl, ?_⟩
        intro kv hkv
        subst hkv
        cases hrec : collateView kept pick as with
        | error e => rw [hrec] at h; cases h
        | ok rest =>
          rw [hrec] at h
          injection h with h'
          rw [← h']
          exact List.mem_cons_self _ _
    · cases hck : collateKey kept pick a with
      | error e => rw [hck] at h; cases h
      | ok r =>
        rw [hck] at h
        cases r with
        | none => exact ih h hkas
        | some kv0 =>
          cases hrec : collateView kept pick as with
          | error e => rw [hrec] at h; cases h
          | ok rest =>
            rw [hrec] at h
            injection h with h'
            obtain ⟨r', hr', hmem⟩ := ih hrec hkas
            refine ⟨r', hr', fun kv hkv => ?_⟩
            rw [← h']
            exact List.mem_cons_of_mem _ (hmem kv hkv)

theorem collateKey_unknown (kept : List Sample) (pick : Sample → View)
    {k : String} (h1 : k ∉ raggedKeys) (h3 : k ∉ catKeys)
    (h4 : k ≠ "select_node_ids") :
    (∃ e, collateKey kept pick k = .error e)
    ∨ ∃ vs, collateKey kept pick k = .ok (some (k, Val.vlist vs)) := by
  have hlab : k ≠ "labels_proposals" := fun he => h3 (by rw [he]; decide)
  unfold collateKey
  rw [if_neg h1, if_neg hlab, if_neg h4]
  cases hg : getVals kept pick k with
  | error e => exact .inl ⟨e, rfl⟩
  | ok vs => exact .inr ⟨vs, rfl⟩

theorem concatKey_unknown (va vb : View) {k : String}
    (h1 : k ∉ raggedKeys) (h2 : k ∉ idKeys) (h3 : k ∉ catKeys) :
    concatKey va vb k = .error "ValueError" := by
  unfold concatKey
  rw [if_neg (fun hor => hor.elim h1 h2), if_neg h3]

/-- C8: a collated field reaching the final view-concatenation step
whose name is outside the known set (the ragged, identifier and dense
field names; `select_node_ids` never reaches this step, being dropped
during per-view collation) makes batch construction abort with an
error instead of merging by a guessed strategy. -/
theorem C8_unknown_field_aborts (batch : List Sample) (s0 : Sample)
    (rest : List Sample) (k : String)
    (hf : batch.filter (fun s => s.valid) = s0 :: rest)
    (hk : k ∈ keysOf s0.view_a)
    (h1 : k ∉ raggedKeys) (h2 : k ∉ idKeys) (h3 : k ∉ catKeys)
    (h4 : k ≠ "select_node_ids") :
    isErr (collate_fn batch) = true := by
  rw [collate_fn_cons hf]
  cases hca : collateView (s0 :: rest) (fun s => s.view_a) (keysOf s0.view_a) with
  | error e => rfl
  | ok ca =>
    cases hcb : collateView (s0 :: rest) (fun s => s.view_b) (keysOf s0.view_b) with
    | error e => rfl
    | ok cb =>
      dsimp only
      obtain ⟨r, hr, hmem⟩ := collateView_ok_key hca hk
      rcases collateKey_unknown (s0 :: rest) (fun s => s.view_a) h1 h3 h4 with
        ⟨e, herr⟩ | ⟨vs, hsome⟩
      · rw [herr] at hr; cases hr
      · rw [hsome] at hr
        injection hr with hr'
        have hkv : (k, Val.vlist vs) ∈ ca := hmem _ hr'.symm
        have hkk : k ∈ keysOf ca :=
          List.mem_map.mpr ⟨(k, Val.vlist vs), hkv, rfl⟩
        have hcErr : isErr (concatKey ca cb k) = true := by
          rw [concatKey_unknown ca cb h1 h2 h3]; rfl
        have hall := exMapM_isErr_of_mem hkk hcErr
        cases hmm : exMapM (concatKey ca cb) (keysOf ca) with
        | error e => rfl
        | ok cv => rw [hmm] at hall; simp [isErr] at hall

theorem C8_unknown_field_aborts_witness :
    isErr (collate_fn [layoutSample]) = true :=
  C8_unknown_field_aborts [layoutSample] layoutSample [] "layout" rfl
    (by decide) (by decide) (by decide) (by decide) (by decide)

/-! ## Claim C2: collation keeps exactly the valid samples in order -/

/-- C2: collation keeps exactly the samples whose validity flag is
true, in their original order (the affinity stack of every successfully
collated non-empty batch is the in-order image of the valid samples);
on the concrete batch with validity flags (valid, valid, invalid,
valid), every concatenated per-field view list has 6 entries ordered
all view_a entries then all view_b entries, and the affinity stack has
batch length 3. -/
theorem C2_collate_filters :
    (∀ (batch : List Sample) (b : Batch),
       collate_fn batch = .ok b →
       batch.filter (fun s => s.valid) ≠ [] →
       b.empty = false
       ∧ b.gt_affinity
           = some ((batch.filter (fun s => s.valid)).map (fun s => s.gt_affinity)))
  ∧ collate_fn c2batch = .ok c2expected
  ∧ (c2expected.gt_affinity.getD []).length = 3
  ∧ (c2expected.views.getD []).map (fun kv => (kv.1, (valItems kv.2).length))
      = [("img", 6), ("house_name", 6), ("view_id", 6), ("codes", 6), ("bboxes", 6)]
  ∧ lookupKey (c2expected.views.getD []) "view_id"
      = some (Val.vlist [Val.vstr "a0", Val.vstr "a1", Val.vstr "a3",
                         Val.vstr "b0", Val.vstr "b1", Val.vstr "b3"]) := by
  refine ⟨?_, rfl, rfl, rfl, rfl⟩
  intro batch b h hne
  cases hfil : batch.filter (fun s => s.valid) with
  | nil => exact absurd hfil hne
  | cons s0 rest =>
    rw [collate_fn_cons hfil] at h
    cases hca : collateView (s0 :: rest) (fun s => s.view_a) (keysOf s0.view_a) with
    | error e => rw [hca] at h; cases h
    | ok ca =>
      rw [hca] at h
      cases hcb : collateView (s0 :: rest) (fun s => s.view_b) (keysOf s0.view_b) with
      | error e => rw [hcb] at h; cases h
      | ok cb =>
        rw [hcb] at h
        dsimp only at h
        cases hmm : exMapM (concatKey ca cb) (keysOf ca) with
        | error e => rw [hmm] at h; cases h
        | ok cv =>
          rw [hmm] at h
          injection h with h'
          rw [← h']
          exact ⟨rfl, rfl⟩

theorem C2_collate_filters_witness :
    c2expected.empty = false
    ∧ c2expected.gt_affinity
        = some ((c2batch.filter (fun s => s.valid)).map (fun s => s.gt_affinity)) :=
  C2_collate_filters.1 c2batch c2expected rfl
    (fun hh => List.noConfusion hh)

/-! ## Claim C1: per-view validity -/

/-- C1 counterexample: the claim's rule marks a view invalid whenever
object-code output is on and the fetched bounding boxes are empty, but
with proposal output also on and a non-empty label result the code
resets the flag: the returned sample validity is true where the claim
requires false.  The positive-only restriction is off here, so the
label result is non-empty even though the empty ground-truth set gives
every proposal only the background label 0: the input needs no
positive label and no overlap with any ground-truth object. -/
theorem C1_validity_counterexample :
    spec_view_invalid optsCodesProps viewNoObjects = true
  ∧ optsCodesProps.output_codes = true
  ∧ fetched_bboxes optsCodesProps viewNoObjects = []
  ∧ optsCodesProps.only_pos_proposals = false
  ∧ fetched_labels optsCodesProps viewNoObjects = [0]
  ∧ (getitem optsCodesProps viewNoObjects viewNoObjects).map (fun s => s.valid)
      = .ok true :=
  ⟨rfl, rfl, rfl, rfl, rfl, rfl⟩

theorem getitem_ok_views (o : Opts) (d1 d2 : ViewData) (s : Sample)
    (h : getitem o d1 d2 = .ok s) :
    ∃ v1 e1 v2 e2, forward_single_item o d1 = .ok (v1, e1)
      ∧ forward_single_item o d2 = .ok (v2, e2)
      ∧ s.valid = (v1 && v2) := by
  · unfold getitem at h
    cases hf1 : forward_single_item o d1 with
    | error e => rw [hf1] at h; cases h
    | ok p1 =>
      obtain ⟨v1, e1⟩ := p1
      rw [hf1] at h
      cases hf2 : forward_single_item o d2 with
      | error e => rw [hf2] at h; cases h
      | ok p2 =>
        obtain ⟨v2, e2⟩ := p2
        rw [hf2] at h
        dsimp only at h
        cases hl1 : lookupKey e1 "select_node_ids" with
        | none => rw [hl1] at h; cases h
        | some n1 =>
          rw [hl1] at h
          cases hl2 : lookupKey e2 "select_node_ids" with
          | none => rw [hl2] at h; cases h
          | some n2 =>
            rw [hl2] at h
            injection h with h'
            exact ⟨v1, e1, v2, e2, rfl, rfl, by rw [← h']⟩

theorem fsi_valid_eq (o : Opts) (d : ViewData) (v : Bool) (e : View)
    (h : forward_single_item o d = .ok (v, e)) :
    v = !(amended_view_invalid o d) := by
  · unfold forward_single_item at h
    by_cases hc : o.output_codes = true
    all_goals by_cases hp : o.output_proposals = true
    all_goals by_cases ht : o.output_test_proposals = true
    all_goals
      simp only [codesStep, proposalsStep, testProposalsStep, finalizeStep,
        amended_view_invalid, hc, hp, ht, if_true, if_false,
        Bool.false_and, Bool.true_and, Bool.and_false, Bool.and_true,
        Bool.or_false, Bool.false_or, Bool.not_true, Bool.not_false,
        eq_self_iff_true, Bool.true_or, Bool.or_true] at h ⊢
    all_goals
      first
      | (cases h)
      | (split_ifs at h ⊢ <;>
          simp_all [fetched_labels, fetched_bboxes, List.length_eq_zero, decide_not])
    all_goals
      cases hbb : (fetched_codes o d).2.1 <;> simp [fetched_bboxes, hbb]

/-- C1 (amended): the returned validity flag equals the conjunction of
the two views' validity, where a view is invalid exactly when
test-proposal output is enabled and the fetched proposal-box array is
empty, or proposal output is enabled and the proposal-label result is
empty, or proposal output is disabled while object-code output is
enabled and the fetched bounding-box list is empty (the proposals
block reassigns the flag, masking the object-code check). -/
theorem C1_validity_amended (o : Opts) (d1 d2 : ViewData) (s : Sample)
    (h : getitem o d1 d2 = .ok s) :
    s.valid = (!(amended_view_invalid o d1) && !(amended_view_invalid o d2)) := by
  obtain ⟨v1, e1, v2, e2, h1, h2, hv⟩ := getitem_ok_views o d1 d2 s h
  rw [hv, fsi_valid_eq o d1 v1 e1 h1, fsi_valid_eq o d2 v2 e2 h2]

theorem C1_validity_amended_witness :
    (Sample.mk true
      [("img", Val.vint 11), ("house_name", Val.vstr "h"),
       ("view_id", Val.vstr "000001"), ("codes", Val.vlist []),
       ("bboxes", Val.vlist []), ("select_node_ids", Val.vlist []),
       ("codes_proposals", Val.vlist [Val.vint 0]),
       ("bboxes_proposals",
        Val.vlist [Val.vlist [Val.vint 0, Val.vint 0, Val.vint 4, Val.vint 4]]),
       ("labels_proposals", Val.vlist [Val.vint 0])]
      [("img", Val.vint 11), ("house_name", Val.vstr "h"),
       ("view_id", Val.vstr "000001"), ("codes", Val.vlist []),
       ("bboxes", Val.vlist []), ("select_node_ids", Val.vlist []),
       ("codes_proposals", Val.vlist [Val.vint 0]),
       ("bboxes_proposals",
        Val.vlist [Val.vlist [Val.vint 0, Val.vint 0, Val.vint 4, Val.vint 4]]),
       ("labels_proposals", Val.vlist [Val.vint 0])]
      [[0, 0, 0, 0], [0, 0, 0, 0], [0, 0, 0, 0], [0, 0, 0, 0]]).valid
      = (!(amended_view_invalid optsCodesProps viewNoObjects)
         && !(amended_view_invalid optsCodesProps viewNoObjects)) :=
  C1_validity_amended optsCodesProps viewNoObjects viewNoObjects _ rfl

/-! ## Claim C10: behaviour with object-code output disabled -/

theorem lookup_baseElem_select (o : Opts) (d : ViewData) :
    lookupKey (baseElem o d) "select_node_ids" = none := by
  unfold baseElem
  split_ifs <;> simp [lookupKey, lookupKey_append]

theorem fsi_codes_off_no_ids {o : Opts} {d : ViewData} {v : Bool} {e : View}
    (hc : o.output_codes = false) (h : forward_single_item o d = .ok (v, e)) :
    lookupKey e "select_node_ids" = none := by
  unfold forward_single_item at h
  simp only [codesStep, hc] at h
  by_cases hp : o.output_proposals = true
  · simp only [proposalsStep, hp, if_true] at h
    cases h
  · simp only [proposalsStep, hp] at h
    unfold testProposalsStep finalizeStep at h
    simp only [Bool.false_eq_true, if_false] at h
    split_ifs at h <;>
      first
      | (exact Except.noConfusion h)
      | (dsimp only at h
         injection h with h1
         injection h1 with hv he
         rw [← he]
         simp [lookupKey, lookupKey_append, lookup_baseElem_select o d])

/-- C10 counterexample: with object-code and proposal output disabled
and test-proposal output enabled over an empty proposal file, neither
proposal output nor non-empty test-proposal output applies, yet the
per-view fetch does not fail at its return: the empty test-proposal
branch binds the validity variable and the fetch returns
(False, element); only the later affinity lookup fails. -/
theorem C10_counterexample :
    optsTestOnly.output_codes = false
  ∧ optsTestOnly.output_proposals = false
  ∧ ¬(optsTestOnly.output_test_proposals = true
       ∧ npSize2 (forward_test_proposals viewEmptyDisk.proposals_disk) ≠ 0)
  ∧ forward_single_item optsTestOnly viewEmptyDisk
      = .ok (false, [("img", Val.vint 11), ("house_name", Val.vstr "h"),
                     ("view_id", Val.vstr "000001"),
                     ("bboxes_test_proposals", Val.vlist [])]) :=
  ⟨rfl, rfl, fun hcon => hcon.2 rfl, rfl⟩

/-- C10 (amended): if object-code output is disabled every sample fetch
(`__getitem__`) fails; and if proposal output is also disabled, the
per-view fetch fails at its return with an unbound validity variable
exactly unless test-proposal output is enabled and fetches an empty
array — in that one case the flag is bound to False, the per-view
fetch returns, and the sample fetch fails later at the affinity
lookup of the absent `select_node_ids` field. -/
theorem C10_codes_off :
    (∀ (o : Opts) (d1 d2 : ViewData), o.output_codes = false →
       isErr (getitem o d1 d2) = true)
  ∧ (∀ (o : Opts) (d : ViewData), o.output_codes = false →
       o.output_proposals = false →
       (forward_single_item o d = .error "UnboundLocalError: valid"
         ↔ ¬(o.output_test_proposals = true
              ∧ npSize2 (forward_test_proposals d.proposals_disk) = 0))) := by
  constructor
  · intro o d1 d2 hc
    unfold getitem
    cases hf1 : forward_single_item o d1 with
    | error e => rfl
    | ok p1 =>
      obtain ⟨v1, e1⟩ := p1
      cases hf2 : forward_single_item o d2 with
      | error e => rfl
      | ok p2 =>
        obtain ⟨v2, e2⟩ := p2
        dsimp only
        rw [fsi_codes_off_no_ids hc hf1, fsi_codes_off_no_ids hc hf2]
        rfl
  · intro o d hc hp
    unfold forward_single_item
    simp only [codesStep, hc]
    simp only [proposalsStep, hp]
    unfold testProposalsStep finalizeStep
    simp only [Bool.false_eq_true, if_false]
    by_cases ht : o.output_test_proposals = true
    · by_cases hsz : npSize2 (forward_test_proposals d.proposals_disk) = 0
      · simp [ht, hsz]
      · simp [ht, hsz]
    · simp [ht]

theorem C10_codes_off_witness :
    isErr (getitem optsTestOnly viewEmptyDisk viewEmptyDisk) = true :=
  C10_codes_off.1 optsTestOnly viewEmptyDisk viewEmptyDisk rfl

end Suncg
